import Mathlib

/-!
Verification development for the streaming pipeline CLI in `src/cli/app.py`.

The program chains click subcommands into a lazy generator pipeline:
`process_commands` folds the adapted stage functions over an empty stream and
drains the result; the `processor` decorator wraps a stage function in a
call-time try/except, and the `generator` decorator additionally forwards the
incoming stream before appending the items produced by the wrapped source.

The embedding below models a Python generator, as observed through one full
pull-based consumption, as a finite list of yielded values together with the
side effects emitted while producing each value, and a terminating event that
is either a normal StopIteration or a raised exception that propagates to the
consumer.  External collaborators (pandas read/write/query, text rendering of
a frame, `ast.literal_eval`, the file system) are parameters gathered in `Env`.
-/

namespace CT

/-- Characters of a Python `str`. -/
abbrev Str := List Char

/-- Opaque in-memory tabular dataset (a pandas frame); the pipeline core never
inspects its contents, so it is represented by an abstract identifier. -/
structure Dataset where
  id : Nat
deriving DecidableEq

/-- Values produced by the loose-parameter parser: the result of
`ast.literal_eval` on the value text, or the raw string fallback. -/
inductive PyVal where
  | pyint (n : Int)
  | pybool (b : Bool)
  | pyNone
  | pystr (s : Str)
deriving DecidableEq

/-- The Python exceptions that the modelled code can raise. `libError` stands
for an exception raised inside an external pandas capability. -/
inductive PyErr where
  | fileNotFound (msg : Str)
  | keyError (k : Str)
  | indexError
  | attributeError (msg : Str)
  | typeErrorNoneNotIterable
  | libError (msg : Str)
deriving DecidableEq

/-- A parameter dictionary: insertion-ordered association list, as a Python
`dict` with string keys. -/
abbrev Dict := List (Str × PyVal)

/-- Python `d[k] = v`: update the entry in place if the key is present,
otherwise append a new entry. -/
def dictInsert (d : Dict) (k : Str) (v : PyVal) : Dict :=
  if d.any (fun p => p.1 == k) then
    d.map (fun p => if p.1 == k then (k, v) else p)
  else d ++ [(k, v)]

/-- Helper for `splitOn`: accumulate the current segment (reversed) and cut at
each separator occurrence. -/
def splitOnAux (sep : Char) : Str → Str → List Str
  | [], acc => [acc.reverse]
  | c :: cs, acc =>
    if c = sep then acc.reverse :: splitOnAux sep cs []
    else splitOnAux sep cs (c :: acc)

/-- Python `s.split(sep)` for a one-character separator: e.g. splitting the
empty string gives one empty segment, and a trailing separator gives a
trailing empty segment. -/
def splitOn (sep : Char) (s : Str) : List Str :=
  splitOnAux sep s []

/-- Processing of one `key=value` segment of `args_to_dict`, given the already
split segment.  `splitted[0]` is the key and `splitted[1]` the value text,
exactly as indexed in the source (a third `=`-separated part is dropped).
A segment lacking `=` splits into a single piece, so `splitted[1]` raises
IndexError inside the `try`, and the fallback line of the `except` block
raises it again, so the whole call fails (modelled as `none`). -/
def segEntry (litEval : Str → Option PyVal) (d : Dict) : List Str → Option Dict
  | k :: v :: _ => some (dictInsert d k ((litEval v).getD (PyVal.pystr v)))
  | _ => none

/-- The `for p in params` loop of `args_to_dict`. -/
def args_to_dict_loop (litEval : Str → Option PyVal) : List Str → Dict → Option Dict
  | [], d => some d
  | p :: ps, d =>
    match segEntry litEval d (splitOn '=' p) with
    | some d2 => args_to_dict_loop litEval ps d2
    | none => none

/-- `args_to_dict` from `src/cli/app.py`, parameterised by the external
`ast.literal_eval` capability `litEval`; a `none` from `litEval` models the
exception that triggers the raw-string fallback, so no arbitrary expression is
ever evaluated — only the literal interpreter is consulted.  The empty string
skips the loop and returns the empty dict. -/
def args_to_dict (litEval : Str → Option PyVal) (arg : Str) : Option Dict :=
  if arg.isEmpty then some []
  else args_to_dict_loop litEval (splitOn '|' arg) []

/-- Index of the last occurrence of `c` in `s` (Python `str.rfind`), if any. -/
def lastIndexOf (c : Char) : Str → Option Nat
  | [] => none
  | x :: xs =>
    match lastIndexOf c xs with
    | some i => some (i + 1)
    | none => if x = c then some 0 else none

/-- `os.path.splitext`: split off the extension at the last dot of the
basename, unless the basename consists only of dots up to that point. -/
def splitext (p : Str) : Str × Str :=
  let sepIndex : Int := ((lastIndexOf '/' p).map Int.ofNat).getD (-1)
  let dotIndex : Int := ((lastIndexOf '.' p).map Int.ofNat).getD (-1)
  if sepIndex < dotIndex then
    let base := (p.drop (sepIndex + 1).toNat).take (dotIndex - sepIndex - 1).toNat
    if base.any (fun c => c != '.') then
      (p.take dotIndex.toNat, p.drop dotIndex.toNat)
    else (p, [])
  else (p, [])

/-- Extension keys of `CONFIG` for `read_functions`. -/
def CONFIG_read_exts : List Str := [".csv".toList, ".xlsx".toList]

/-- Extension keys of `CONFIG` for `to_functions`. -/
def CONFIG_to_exts : List Str := [".csv".toList, ".xlsx".toList]

/-- A value flowing through the stream: a dataset, or Python `None` (the
transform stages `yield` with no argument, which yields `None`). -/
inductive PyObj where
  | df (d : Dataset)
  | noneObj
deriving DecidableEq

/-- Observable side effects of a pipeline run. -/
inductive OutEvent where
  | stdout (s : Str)
  | stderr (s : Str)
  | fileWrite (path : Str) (d : Dataset) (params : Dict)
deriving DecidableEq

abbrev Effects := List OutEvent

/-- A Python generator, observed through one full pull-based consumption:
`items` are the yielded values, each paired with the side effects emitted
while producing it; `final` carries the effects emitted after the last item
together with `none` (normal StopIteration) or `some e` (the generator body
raised `e`, and the exception propagates to whoever is pulling). -/
structure PStream where
  items : List (Effects × PyObj)
  final : Effects × Option PyErr
deriving DecidableEq

/-- The initial stream of `process_commands`: the empty tuple. -/
def emptyStream : PStream := ⟨[], ([], none)⟩

/-- A generator that raises `e` on the first pull, yielding nothing. -/
def raiseStream (e : PyErr) : PStream := ⟨[], ([], some e)⟩

/-- External collaborators, opaque to the pipeline core: the file system, the
`ast.literal_eval` capability, the pandas read/query/write capabilities keyed
by extension, and the textual renderings used by the printing stages. -/
structure Env where
  isfile : Str → Bool
  litEval : Str → Option PyVal
  readResult : Str → Str → Dict → Except PyErr Dataset
  queryResult : Dataset → Str → Except PyErr Dataset
  writeResult : Str → Dataset → Str → Dict → Except PyErr Unit
  renderHead : Dataset → Int → Str
  renderFrame : Dataset → Str
  renderInfo : Dataset → Str
  renderFull : Dataset → Str

/-- The expression `args_to_dict(params) if params else` the empty dict,
shared by `read_cmd` and `to_cmd`. -/
def loose_params (env : Env) (params : Str) : Option Dict :=
  if params.isEmpty then some []
  else args_to_dict env.litEval params

/-- Body of `read_cmd`: the sequence of failure points follows the source
exactly — the `os.path.isfile` guard raising FileNotFoundError, then
`args_to_dict`, then the `CONFIG` lookup by extension (KeyError), then the
external pandas read call; on success exactly one dataset is yielded. -/
def read_cmd (env : Env) (filename params : Str) : PStream :=
  if env.isfile filename then
    match loose_params env params with
    | none => raiseStream PyErr.indexError
    | some prms =>
      if CONFIG_read_exts.contains (splitext filename).2 then
        match env.readResult (splitext filename).2 filename prms with
        | Except.ok d => ⟨[([], PyObj.df d)], ([], none)⟩
        | Except.error e => raiseStream e
      else raiseStream (PyErr.keyError (splitext filename).2)
  else raiseStream (PyErr.fileNotFound (filename ++ " not found.".toList))

/-- Prefix the effects `eff` onto the first thing the stream does. -/
def consEffects (eff : Effects) (t : PStream) : PStream :=
  match t.items with
  | [] => ⟨[], (eff ++ t.final.1, t.final.2)⟩
  | (e1, x) :: rest => ⟨(eff ++ e1, x) :: rest, t.final⟩

/-- `yield from s` followed by `yield from t`: if `s` raises, the exception
propagates and `t` is never started. -/
def streamAppend (s t : PStream) : PStream :=
  match s.final.2 with
  | some _ => s
  | none =>
    let t2 := consEffects s.final.1 t
    ⟨s.items ++ t2.items, t2.final⟩

/-- The `generator` decorator of the source: the adapted stage forwards the
incoming stream unchanged, then appends the items of the wrapped source `g`.
The additional `processor` wrapping it applies is transparent here, because
calling a generator function only constructs the generator and cannot raise
(see `processor` below). -/
def generator (g : PStream) : PStream → PStream :=
  fun stream => streamAppend stream g

/-- Run a per-item generator body `for x in dfs` over a consumed upstream:
`step x` gives the effects emitted for item `x` and either the value yielded
for it or a raised exception, which truncates the output right there.  An
exception raised by the upstream re-raises through the `for` loop. -/
def runItems (step : PyObj → Effects × Except PyErr PyObj) :
    List (Effects × PyObj) → Effects × Option PyErr → PStream
  | [], fin => ⟨[], fin⟩
  | (eff, x) :: rest, fin =>
    match step x with
    | (seff, Except.ok y) =>
      let out := runItems step rest fin
      ⟨(eff ++ seff, y) :: out.items, out.final⟩
    | (seff, Except.error e) => ⟨[], (eff ++ seff, some e)⟩

/-- A transform stage body as a stream function. -/
def runTransform (step : PyObj → Effects × Except PyErr PyObj) (s : PStream) : PStream :=
  runItems step s.items s.final

/-- One iteration of `head_cmd`: echo the head rendering of the frame, then
`yield` (which yields `None`).  On a non-frame item, the attribute access on
`None` raises. -/
def headStep (env : Env) (lines : Int) (x : PyObj) : Effects × Except PyErr PyObj :=
  match x with
  | PyObj.df d => ([OutEvent.stdout (env.renderHead d lines)], Except.ok PyObj.noneObj)
  | PyObj.noneObj => ([], Except.error (PyErr.attributeError "head".toList))

/-- The `head` stage (already `processor`-adapted; the adapter is transparent
for generator functions). -/
def head_cmd (env : Env) (lines : Int) : PStream → PStream :=
  runTransform (headStep env lines)

/-- One iteration of `filter_cmd`: run the query, print the filtered frame,
yield the filtered frame.  A query failure raises before anything is printed. -/
def filterStep (env : Env) (expression : Str) (x : PyObj) : Effects × Except PyErr PyObj :=
  match x with
  | PyObj.noneObj => ([], Except.error (PyErr.attributeError "query".toList))
  | PyObj.df d =>
    match env.queryResult d expression with
    | Except.error e => ([], Except.error e)
    | Except.ok d2 => ([OutEvent.stdout (env.renderFrame d2)], Except.ok (PyObj.df d2))

/-- The `filter` stage. -/
def filter_cmd (env : Env) (expression : Str) : PStream → PStream :=
  runTransform (filterStep env expression)

/-- One iteration of `to_cmd`: as in the source, the `CONFIG` lookup by
extension (KeyError) happens first, then the loose-parameter parse, then the
external write capability; a successful write is the `fileWrite` effect and
the stage yields `None`. -/
def toStep (env : Env) (filename params : Str) (x : PyObj) : Effects × Except PyErr PyObj :=
  if CONFIG_to_exts.contains (splitext filename).2 then
    match loose_params env params with
    | none => ([], Except.error PyErr.indexError)
    | some prms =>
      match x with
      | PyObj.noneObj => ([], Except.error (PyErr.attributeError "to".toList))
      | PyObj.df d =>
        match env.writeResult (splitext filename).2 d filename prms with
        | Except.ok _ => ([OutEvent.fileWrite filename d prms], Except.ok PyObj.noneObj)
        | Except.error e => ([], Except.error e)
  else ([], Except.error (PyErr.keyError (splitext filename).2))

/-- The `to` stage. -/
def to_cmd (env : Env) (filename params : Str) : PStream → PStream :=
  runTransform (toStep env filename params)

/-- One iteration of `info_cmd`. -/
def infoStep (env : Env) (x : PyObj) : Effects × Except PyErr PyObj :=
  match x with
  | PyObj.df d => ([OutEvent.stdout (env.renderInfo d)], Except.ok PyObj.noneObj)
  | PyObj.noneObj => ([], Except.error (PyErr.attributeError "info".toList))

/-- The `info` stage. -/
def info_cmd (env : Env) : PStream → PStream :=
  runTransform (infoStep env)

/-- One iteration of the `print` command (also named `info_cmd` in the
source, shadowing the previous definition at module level). -/
def printStep (env : Env) (x : PyObj) : Effects × Except PyErr PyObj :=
  match x with
  | PyObj.df d => ([OutEvent.stdout (env.renderFull d)], Except.ok PyObj.noneObj)
  | PyObj.noneObj => ([], Except.error (PyErr.attributeError "shape".toList))

/-- The `print` stage. -/
def print_cmd (env : Env) : PStream → PStream :=
  runTransform (printStep env)

/-- Call-time behaviour of a callable handed to the `processor` decorator: a
generator function returns its generator without running any of its body, so
the try/except of the decorator cannot observe body exceptions; a plain
callable may raise at call time. -/
inductive PyCallable where
  | genFunc (f : PStream → PStream)
  | raisesAtCall (e : PyErr)

/-- Python `str(e)` for the modelled exceptions. -/
def errText : PyErr → Str
  | PyErr.fileNotFound m => m
  | PyErr.keyError k => k
  | PyErr.indexError => "list index out of range".toList
  | PyErr.attributeError m => m
  | PyErr.typeErrorNoneNotIterable => "NoneType object is not iterable".toList
  | PyErr.libError m => m

/-- The inner closure produced by the `processor` decorator: call `f` on the
stream inside try/except.  For a generator function the call merely builds
the generator, no effects happen and nothing can be caught; if the call
itself raises, the except block echoes the error to stderr and the function
falls off its end, returning `None` instead of a stream. -/
def processor (c : PyCallable) (stream : PStream) : Effects × Option PStream :=
  match c with
  | PyCallable.genFunc f => ([], some (f stream))
  | PyCallable.raisesAtCall e =>
    ([OutEvent.stderr ("Error: ".toList ++ errText e)], none)

/-- The fold `stream = processor(stream)` over the chained processors, as in
`process_commands`. -/
def pipeLoop : List (PStream → PStream) → PStream → PStream
  | [], s => s
  | p :: ps, s => pipeLoop ps (p s)

/-- The final `for` loop of `process_commands`, consuming the stream and
discarding the items: all per-item effects happen in order, then the final
effects; an exception raised by the stream escapes the loop. -/
def drain (s : PStream) : Effects × Option PyErr :=
  ((s.items.map Prod.fst).flatten ++ s.final.1, s.final.2)

/-- Draining a value that may be `None` rather than a stream (a processor
whose except block caught a call-time error returns `None`): iterating `None`
raises TypeError at once. -/
def drainOpt : Option PStream → Effects × Option PyErr
  | some s => drain s
  | none => ([], some PyErr.typeErrorNoneNotIterable)

/-- A downstream generator stage applied to a value that may be `None`: its
`for` loop raises TypeError on the first pull when handed `None`. -/
def runTransformOpt (step : PyObj → Effects × Except PyErr PyObj) :
    Option PStream → PStream
  | some s => runTransform step s
  | none => raiseStream PyErr.typeErrorNoneNotIterable

/-- `process_commands`: fold the processors left to right over the empty
stream, then drain the result. -/
def process_commands (processors : List (PStream → PStream)) : Effects × Option PyErr :=
  drain (pipeLoop processors emptyStream)

/-- The five concrete stages of the CLI, with their bound parameters. -/
inductive StageSpec where
  | readS (filename params : Str)
  | headS (lines : Int)
  | filterS (expression : Str)
  | toS (filename params : Str)
  | infoS
  | printS

/-- The adapted stage function a `StageSpec` denotes. -/
def interpStage (env : Env) : StageSpec → PStream → PStream
  | StageSpec.readS fn ps => generator (read_cmd env fn ps)
  | StageSpec.headS n => head_cmd env n
  | StageSpec.filterS e => filter_cmd env e
  | StageSpec.toS fn ps => to_cmd env fn ps
  | StageSpec.infoS => info_cmd env
  | StageSpec.printS => print_cmd env

/-- The sequence of values a stream yields, forgetting effects. -/
def itemsOf (s : PStream) : List PyObj := s.items.map Prod.snd

/-- `T` forwards items without reordering.  Witnessed by one per-item function
`f` (the work the stage does on each forwarded item) and one fixed list `news`
of potential stage-generated items (what a wrapped source would yield), both
chosen before the input stream is quantified: on every input, the output items
are `f` mapped over a prefix of the input items, position by position
(truncation models a raised exception cutting the stage short), followed by
stage-generated items drawn in order from `news`.  Because `f` and `news`
cannot depend on the input, a transformer that permutes its input items does
not satisfy this (see `noReorder_excludes_reversal`), while forwarding,
tail-truncating and fresh-appending stages do. -/
def NoReorder (T : PStream → PStream) : Prop :=
  ∃ (f : PyObj → PyObj) (news : List PyObj),
    ∀ s, ∃ (n : Nat) (fresh : List PyObj),
      fresh.Sublist news ∧
      itemsOf (T s) = ((itemsOf s).take n).map f ++ fresh

/-- A stream transformer that reverses the items of its input: the canonical
reordering transformer, used to show that `NoReorder` rules reordering out. -/
def revItems (s : PStream) : PStream := ⟨s.items.reverse, s.final⟩

/-- Numeric identifier of an item, used to pick datasets outside a given
finite list. -/
def pyId : PyObj → Nat
  | PyObj.df d => d.id
  | PyObj.noneObj => 0

/-- The value a step yields for an input item, when it yields one. -/
def stepImage (step : PyObj → Effects × Except PyErr PyObj) (x : PyObj) : PyObj :=
  match (step x).2 with
  | Except.ok y => y
  | Except.error _ => x

/-- Concrete datasets for test environments. -/
def dfA : Dataset := ⟨0⟩

def dfB : Dataset := ⟨1⟩

/-- A concrete test environment: `a.csv` and `b.csv` exist and read
successfully, every filter expression fails to parse, writes succeed. -/
def envC : Env :=
  ⟨fun s => s == "a.csv".toList || s == "b.csv".toList,
   fun _ => none,
   fun _ fn _ =>
     if fn == "a.csv".toList then Except.ok dfA
     else if fn == "b.csv".toList then Except.ok dfB
     else Except.error (PyErr.libError "read failed".toList),
   fun _ _ => Except.error (PyErr.libError "bad filter expression".toList),
   fun _ _ _ _ => Except.ok (),
   fun _ _ => "head-rows".toList,
   fun _ => "frame".toList,
   fun _ => "frame-info".toList,
   fun _ => "frame-full".toList⟩

/-- Concrete instance of the `ast.literal_eval` capability covering booleans,
`None` and decimal integer literals; on anything else it reports a parse
failure (the exception that makes `args_to_dict` fall back to the raw
string). -/
def litEvalModel (s : Str) : Option PyVal :=
  if s = "True".toList then some (PyVal.pybool true)
  else if s = "False".toList then some (PyVal.pybool false)
  else if s = "None".toList then some PyVal.pyNone
  else if !s.isEmpty && s.all Char.isDigit then
    some (PyVal.pyint (s.foldl (fun acc c => acc * 10 + ((c.toNat : Int) - 48)) 0))
  else none

/-- The `key=value` rendering of one pair. -/
def segOf (kv : Str × Str) : Str := kv.1 ++ '=' :: kv.2

/-- Join segments with a separator character (inverse of `splitOn` on
well-formed segments). -/
def joinSep (c : Char) : List Str → Str
  | [] => []
  | [s] => s
  | s :: s2 :: rest => s ++ c :: joinSep c (s2 :: rest)

/-- Render a list of key/value pairs as a loose-parameter string. -/
def renderPairs (pairs : List (Str × Str)) : Str :=
  joinSep '|' (pairs.map segOf)

/-- A one-item input stream, used as a concrete witness input. -/
def sOne : PStream := ⟨[([], PyObj.df dfA)], ([], none)⟩

/-- A stream with one item that emits an effect, used as a witness input. -/
def s0 : PStream := ⟨[([OutEvent.stdout "x".toList], PyObj.noneObj)], ([], none)⟩

/-! Helper lemmas about splitting and joining segments. -/

theorem splitOnAux_append (sep : Char) (seg : Str) (hsep : ∀ c ∈ seg, c ≠ sep) :
    ∀ (l acc : Str), splitOnAux sep (seg ++ l) acc = splitOnAux sep l (seg.reverse ++ acc) := by
  induction seg with
  | nil => intro l acc; simp
  | cons x xs ih =>
    intro l acc
    have hx : x ≠ sep := hsep x (by simp)
    have hxs : ∀ c ∈ xs, c ≠ sep := fun c hc => hsep c (by simp [hc])
    simp only [List.cons_append, splitOnAux, if_neg hx, List.append_eq]
    rw [ih hxs l (x :: acc)]
    simp [List.append_assoc]

theorem splitOn_sepFree (sep : Char) (s : Str) (h : ∀ c ∈ s, c ≠ sep) :
    splitOn sep s = [s] := by
  have h2 := splitOnAux_append sep s h [] []
  rw [List.append_nil] at h2
  unfold splitOn
  rw [h2]
  simp [splitOnAux]

theorem splitOn_cons (sep : Char) (seg rest : Str) (h : ∀ c ∈ seg, c ≠ sep) :
    splitOn sep (seg ++ sep :: rest) = seg :: splitOn sep rest := by
  unfold splitOn
  rw [splitOnAux_append sep seg h (sep :: rest) []]
  simp [splitOnAux]

theorem splitOn_pair (sep : Char) (k v : Str)
    (hk : ∀ c ∈ k, c ≠ sep) (hv : ∀ c ∈ v, c ≠ sep) :
    splitOn sep (k ++ sep :: v) = [k, v] := by
  rw [splitOn_cons sep k v hk, splitOn_sepFree sep v hv]

theorem joinSep_ne_nil (c : Char) (s : Str) (rest : List Str) (hs : s ≠ []) :
    joinSep c (s :: rest) ≠ [] := by
  cases rest with
  | nil => simpa [joinSep] using hs
  | cons s2 r2 =>
    simp only [joinSep]
    cases s with
    | nil => simp
    | cons a as => simp

theorem splitOn_joinSep (sep : Char) (L : List Str) (hL : L ≠ [])
    (h : ∀ s ∈ L, ∀ c ∈ s, c ≠ sep) : splitOn sep (joinSep sep L) = L := by
  induction L with
  | nil => exact absurd rfl hL
  | cons s rest ih =>
    cases rest with
    | nil => simp [joinSep, splitOn_sepFree sep s (h s (by simp))]
    | cons s2 r2 =>
      have h1 : ∀ c ∈ s, c ≠ sep := h s (by simp)
      have h2 : ∀ t ∈ s2 :: r2, ∀ c ∈ t, c ≠ sep := fun t ht => h t (by simp [ht])
      simp only [joinSep]
      rw [splitOn_cons sep s _ h1, ih (by simp) h2]

theorem segOf_ne_nil (kv : Str × Str) : segOf kv ≠ [] := by
  unfold segOf
  cases h : kv.1 with
  | nil => simp
  | cons a as => simp

theorem segOf_barFree (pairs : List (Str × Str))
    (hwf : ∀ kv ∈ pairs, (∀ c ∈ kv.1, c ≠ '=' ∧ c ≠ '|') ∧ (∀ c ∈ kv.2, c ≠ '=' ∧ c ≠ '|')) :
    ∀ s ∈ pairs.map segOf, ∀ c ∈ s, c ≠ '|' := by
  intro s hs c hc
  obtain ⟨kv, hkv, rfl⟩ := List.mem_map.mp hs
  unfold segOf at hc
  rcases List.mem_append.mp hc with h1 | h2
  · exact ((hwf kv hkv).1 c h1).2
  · cases List.mem_cons.mp h2 with
    | inl h => subst h; decide
    | inr h => exact ((hwf kv hkv).2 c h).2

theorem dictInsert_fresh (d : Dict) (k : Str) (v : PyVal) (h : ∀ p ∈ d, p.1 ≠ k) :
    dictInsert d k v = d ++ [(k, v)] := by
  have hfalse : (d.any fun p => p.1 == k) = false := by
    rw [List.any_eq_false]
    intro p hp
    simpa using h p hp
  unfold dictInsert
  rw [hfalse]
  simp

theorem args_loop_cons_ok (litEval : Str → Option PyVal) (ps : List Str)
    (d d2 : Dict) (p : Str) (h : segEntry litEval d (splitOn '=' p) = some d2) :
    args_to_dict_loop litEval (p :: ps) d = args_to_dict_loop litEval ps d2 := by
  simp only [args_to_dict_loop]
  rw [h]

theorem args_loop_cons_bad (litEval : Str → Option PyVal) (ps : List Str)
    (d : Dict) (p : Str) (h : segEntry litEval d (splitOn '=' p) = none) :
    args_to_dict_loop litEval (p :: ps) d = none := by
  simp only [args_to_dict_loop]
  rw [h]

theorem args_loop_eval (litEval : Str → Option PyVal) :
    ∀ (pairs : List (Str × Str)) (d : Dict),
      (∀ kv ∈ pairs, (∀ c ∈ kv.1, c ≠ '=') ∧ (∀ c ∈ kv.2, c ≠ '=')) →
      (∀ kv ∈ pairs, ∀ p ∈ d, p.1 ≠ kv.1) →
      (pairs.map Prod.fst).Nodup →
      args_to_dict_loop litEval (pairs.map segOf) d
        = some (d ++ pairs.map fun kv => (kv.1, (litEval kv.2).getD (PyVal.pystr kv.2))) := by
  intro pairs
  induction pairs with
  | nil => intro d _ _ _; simp [args_to_dict_loop]
  | cons kv rest ih =>
    intro d hwf hdisj hnd
    obtain ⟨hk, hv⟩ := hwf kv (by simp)
    have hstep : segEntry litEval d (splitOn '=' (segOf kv))
        = some (dictInsert d kv.1 ((litEval kv.2).getD (PyVal.pystr kv.2))) := by
      unfold segOf
      rw [splitOn_pair '=' kv.1 kv.2 hk hv]
      rfl
    have hfresh : ∀ p ∈ d, p.1 ≠ kv.1 := hdisj kv (by simp)
    rw [List.map_cons, args_loop_cons_ok litEval _ _ _ _ hstep,
      dictInsert_fresh d kv.1 _ hfresh]
    have hnd2 : kv.1 ∉ rest.map Prod.fst ∧ (rest.map Prod.fst).Nodup := by
      rw [List.map_cons] at hnd
      exact List.nodup_cons.mp hnd
    have hnotin : kv.1 ∉ rest.map Prod.fst := hnd2.1
    have hdisj2 : ∀ kv2 ∈ rest, ∀ p ∈ d ++ [(kv.1, (litEval kv.2).getD (PyVal.pystr kv.2))],
        p.1 ≠ kv2.1 := by
      intro kv2 hkv2 p hp
      rcases List.mem_append.mp hp with hpd | hpk
      · exact hdisj kv2 (by simp [hkv2]) p hpd
      · have hpe : p = (kv.1, (litEval kv.2).getD (PyVal.pystr kv.2)) := by simpa using hpk
        subst hpe
        intro heq
        exact hnotin (heq ▸ List.mem_map_of_mem Prod.fst hkv2)
    rw [ih _ (fun kv2 h2 => hwf kv2 (by simp [h2])) hdisj2 hnd2.2]
    simp

theorem args_loop_missing_eq (litEval : Str → Option PyVal) :
    ∀ (segs : List Str) (d : Dict),
      (∃ seg ∈ segs, ∀ c ∈ seg, c ≠ '=') →
      args_to_dict_loop litEval segs d = none := by
  intro segs
  induction segs with
  | nil => intro d h; simp at h
  | cons s rest ih =>
    intro d hbad
    rcases hbad with ⟨seg, hmem, hfree⟩
    rcases List.mem_cons.mp hmem with rfl | hrest
    · have : segEntry litEval d (splitOn '=' seg) = none := by
        rw [splitOn_sepFree '=' seg hfree]
        rfl
      exact args_loop_cons_bad litEval rest d seg this
    · cases hse : segEntry litEval d (splitOn '=' s) with
      | none => exact args_loop_cons_bad litEval rest d s hse
      | some d2 =>
        rw [args_loop_cons_ok litEval rest d d2 s hse]
        exact ih d2 ⟨seg, hrest, hfree⟩

/-! Helper lemmas about streams and stages. -/

theorem itemsOf_consEffects (eff : Effects) (t : PStream) :
    itemsOf (consEffects eff t) = itemsOf t := by
  obtain ⟨items, fin⟩ := t
  cases items with
  | nil => rfl
  | cons p rest =>
    obtain ⟨e1, x⟩ := p
    rfl

theorem consEffects_final_err (eff : Effects) (t : PStream) :
    (consEffects eff t).final.2 = t.final.2 := by
  obtain ⟨items, fin⟩ := t
  cases items with
  | nil => rfl
  | cons p rest =>
    obtain ⟨e1, x⟩ := p
    rfl

theorem runItems_take (step : PyObj → Effects × Except PyErr PyObj) :
    ∀ (items : List (Effects × PyObj)) (fin : Effects × Option PyErr),
      ∃ n, itemsOf (runItems step items fin)
        = ((items.map Prod.snd).take n).map (stepImage step) := by
  intro items
  induction items with
  | nil => intro fin; exact ⟨0, by simp [runItems, itemsOf]⟩
  | cons it rest ih =>
    intro fin
    obtain ⟨eff, x⟩ := it
    rcases hs : step x with ⟨seff, r⟩
    cases r with
    | ok y =>
      obtain ⟨n, hn⟩ := ih fin
      refine ⟨n + 1, ?_⟩
      simp only [runItems]
      rw [hs]
      simp only [itemsOf, List.map_cons, List.map_map, List.take_succ_cons] at hn ⊢
      rw [hn]
      have himg : stepImage step x = y := by
        unfold stepImage
        rw [hs]
      simp [himg]
    | error e =>
      refine ⟨0, ?_⟩
      simp only [runItems]
      rw [hs]
      simp [itemsOf]

theorem noReorder_runTransform (step : PyObj → Effects × Except PyErr PyObj) :
    NoReorder (runTransform step) := by
  refine ⟨stepImage step, [], ?_⟩
  intro s
  obtain ⟨n, hn⟩ := runItems_take step s.items s.final
  exact ⟨n, [], List.Sublist.refl [], by rw [List.append_nil]; exact hn⟩

theorem noReorder_generator (g : PStream) : NoReorder (generator g) := by
  refine ⟨id, itemsOf g, ?_⟩
  intro s
  cases hf : s.final.2 with
  | some e =>
    refine ⟨(itemsOf s).length, [], List.nil_sublist _, ?_⟩
    simp only [generator, streamAppend]
    rw [hf]
    simp
  | none =>
    refine ⟨(itemsOf s).length, itemsOf g, List.Sublist.refl _, ?_⟩
    simp only [generator, streamAppend]
    rw [hf]
    simp only [itemsOf, List.map_append, List.take_length, List.map_id]
    congr 1
    exact itemsOf_consEffects s.final.1 g

theorem noReorder_comp (T U : PStream → PStream)
    (hT : NoReorder T) (hU : NoReorder U) : NoReorder (fun s => U (T s)) := by
  obtain ⟨f, news1, h1⟩ := hT
  obtain ⟨g, news2, h2⟩ := hU
  refine ⟨g ∘ f, news1.map g ++ news2, ?_⟩
  intro s
  obtain ⟨n, fresh1, hsub1, heq1⟩ := h1 s
  obtain ⟨k, fresh2, hsub2, heq2⟩ := h2 (T s)
  refine ⟨min k n,
    (fresh1.take (k - (((itemsOf s).take n).map f).length)).map g ++ fresh2, ?_, ?_⟩
  · exact List.Sublist.append
      (((fresh1.take_sublist _).trans hsub1).map g) hsub2
  · rw [heq2, heq1, List.take_append_eq_append_take, List.map_append, List.append_assoc,
      ← List.map_take f ((itemsOf s).take n) k, List.take_take, List.map_map]

theorem noReorder_excludes_reversal : ¬ NoReorder revItems := by
  rintro ⟨f, news, h⟩
  have hnotin : ∀ q, (news.map pyId).sum + 1 ≤ q → PyObj.df ⟨q⟩ ∉ news := by
    intro q hq hmem
    have hle : pyId (PyObj.df ⟨q⟩) ≤ (news.map pyId).sum :=
      List.single_le_sum (fun x _ => Nat.zero_le x) _ (List.mem_map_of_mem pyId hmem)
    simp only [pyId] at hle
    omega
  have main : ∀ o : Nat,
      f (PyObj.df ⟨(news.map pyId).sum + 1⟩)
        = PyObj.df ⟨(news.map pyId).sum + 1 + (o + 1)⟩ := by
    intro o
    obtain ⟨n, fresh, hsub, heq⟩ := h
      ⟨[([], PyObj.df ⟨(news.map pyId).sum + 1⟩),
        ([], PyObj.df ⟨(news.map pyId).sum + 1 + (o + 1)⟩)], ([], none)⟩
    simp only [revItems, itemsOf, List.map_cons, List.map_nil, List.reverse_cons,
      List.reverse_nil, List.nil_append, List.cons_append] at heq
    match n, heq with
    | 0, heq =>
      simp only [List.take_zero, List.map_nil, List.nil_append] at heq
      have hmemf : PyObj.df ⟨(news.map pyId).sum + 1 + (o + 1)⟩ ∈ fresh := by
        rw [← heq]
        exact List.mem_cons_self _ _
      exact absurd (hsub.subset hmemf)
        (hnotin ((news.map pyId).sum + 1 + (o + 1)) (by omega))
    | 1, heq =>
      simp only [List.take_succ_cons, List.take_zero, List.map_cons, List.map_nil,
        List.cons_append, List.nil_append, List.cons.injEq] at heq
      have hmemf : PyObj.df ⟨(news.map pyId).sum + 1⟩ ∈ fresh := by
        rw [← heq.2]
        exact List.mem_cons_self _ _
      exact absurd (hsub.subset hmemf)
        (hnotin ((news.map pyId).sum + 1) (by omega))
    | (m + 2), heq =>
      simp only [List.take_succ_cons, List.take_nil, List.map_cons, List.map_nil,
        List.cons_append, List.nil_append, List.cons.injEq] at heq
      exact heq.1.symm
  have h1 := main 0
  have h2 := main 1
  rw [h1] at h2
  simp only [PyObj.df.injEq, Dataset.mk.injEq] at h2
  omega

theorem pipeLoop_foldl (ps : List (PStream → PStream)) :
    ∀ s, pipeLoop ps s = List.foldl (fun s p => p s) s ps := by
  induction ps with
  | nil => intro s; rfl
  | cons p ps2 ih =>
    intro s
    simp only [pipeLoop, List.foldl]
    exact ih (p s)

/-! Claim theorems. -/

/-- C1: the claim says every exception raised during a stage execution —
including while the lazy output of the stage is consumed — is reported to the
error channel and contained.  The code does not do this: the try/except of the
adapter guards only the call of the stage function, which for a generator
function merely constructs the generator, so an exception raised while the
filter stage is consumed (here a failing query expression, raised during the
drain) escapes `process_commands` with no stderr message at all: the run
produces zero effects and an uncaught exception. -/
theorem c1_exception_escapes_adapter :
    process_commands
      [generator (read_cmd envC "a.csv".toList []), filter_cmd envC "x > (".toList]
      = ([], some (PyErr.libError "bad filter expression".toList)) := rfl

/-- C2: the claim says the pipeline read(missing.csv) then head(3) prints an
error and completes without an uncaught crash.  In the code the
FileNotFoundError raised inside the read generator propagates through the
head stage and out of the drain loop uncaught: the run emits no output at all
(in particular the head stage prints nothing, the only part that holds) and
ends in the escaped exception. -/
theorem c2_missing_file_crashes :
    process_commands
      [generator (read_cmd envC "missing.csv".toList []), head_cmd envC 3]
      = ([], some (PyErr.fileNotFound "missing.csv not found.".toList)) := rfl

/-- C3: for a loose-parameter string rendered from key/value pairs of the
documented form (keys and values free of the separators, keys distinct —
possibly no pairs at all, the empty string), `args_to_dict` returns exactly
the listed keys in order, each mapped to the literal interpretation of its
value text when the literal parser accepts it and to the raw value string
otherwise.  The statement holds for every literal-interpretation function
`litEval`, since the parser consults nothing else — no expression evaluation
beyond the literal parser can occur. -/
theorem c3_args_to_dict (litEval : Str → Option PyVal) (pairs : List (Str × Str))
    (hwf : ∀ kv ∈ pairs, (∀ c ∈ kv.1, c ≠ '=' ∧ c ≠ '|') ∧ (∀ c ∈ kv.2, c ≠ '=' ∧ c ≠ '|'))
    (hnd : (pairs.map Prod.fst).Nodup) :
    args_to_dict litEval (renderPairs pairs)
      = some (pairs.map fun kv => (kv.1, (litEval kv.2).getD (PyVal.pystr kv.2))) := by
  cases pairs with
  | nil => rfl
  | cons kv rest =>
    have hne : renderPairs (kv :: rest) ≠ [] := by
      unfold renderPairs
      rw [List.map_cons]
      exact joinSep_ne_nil '|' (segOf kv) (rest.map segOf) (segOf_ne_nil kv)
    have hsplit : splitOn '|' (renderPairs (kv :: rest)) = (kv :: rest).map segOf := by
      unfold renderPairs
      exact splitOn_joinSep '|' ((kv :: rest).map segOf) (by simp)
        (segOf_barFree (kv :: rest) hwf)
    have hloop := args_loop_eval litEval (kv :: rest) []
      (fun kv2 h2 => ⟨fun c hc => ((hwf kv2 h2).1 c hc).1, fun c hc => ((hwf kv2 h2).2 c hc).1⟩)
      (by simp) hnd
    have hiempty : (renderPairs (kv :: rest)).isEmpty = false := by
      cases hcc : renderPairs (kv :: rest) with
      | nil => exact absurd hcc hne
      | cons c t => rfl
    unfold args_to_dict
    rw [hiempty, hsplit]
    simpa using hloop

/-- C3 witness: the documented example, on the concrete literal-parser model. -/
theorem c3_witness :
    args_to_dict litEvalModel "a=1|b=True".toList
      = some [("a".toList, PyVal.pyint 1), ("b".toList, PyVal.pybool true)] := by
  have h := c3_args_to_dict litEvalModel [("a".toList, "1".toList), ("b".toList, "True".toList)]
    (by decide) (by decide)
  have hr : renderPairs [("a".toList, "1".toList), ("b".toList, "True".toList)]
      = "a=1|b=True".toList := by decide
  rw [hr] at h
  rw [h]
  decide

/-- C4: the source adapter first forwards every item of the incoming stream
unchanged and in order and then appends the items produced by the wrapped
source (provided the incoming stream terminates normally; if it raises, the
exception propagates before the source runs), so chaining two read stages
yields the two datasets in command order. -/
theorem c4_source_append :
    (∀ (s g : PStream), s.final.2 = none →
        itemsOf (generator g s) = itemsOf s ++ itemsOf g ∧
        (generator g s).final.2 = g.final.2) ∧
    (∀ (env : Env) (fnA psA fnB psB : Str) (dA dB : Dataset),
        read_cmd env fnA psA = ⟨[([], PyObj.df dA)], ([], none)⟩ →
        read_cmd env fnB psB = ⟨[([], PyObj.df dB)], ([], none)⟩ →
        itemsOf (pipeLoop
          [generator (read_cmd env fnA psA), generator (read_cmd env fnB psB)]
          emptyStream) = [PyObj.df dA, PyObj.df dB]) := by
  constructor
  · intro s g hf
    constructor
    · simp only [generator, streamAppend]
      rw [hf]
      simp only [itemsOf, List.map_append]
      congr 1
      exact itemsOf_consEffects s.final.1 g
    · simp only [generator, streamAppend]
      rw [hf]
      exact consEffects_final_err s.final.1 g
  · intro env fnA psA fnB psB dA dB h1 h2
    simp only [pipeLoop]
    rw [h1, h2]
    rfl

/-- C4 witness: two concrete chained reads in the test environment. -/
theorem c4_witness :
    itemsOf (pipeLoop
      [generator (read_cmd envC "a.csv".toList []), generator (read_cmd envC "b.csv".toList [])]
      emptyStream) = [PyObj.df dfA, PyObj.df dfB] :=
  c4_source_append.2 envC "a.csv".toList [] "b.csv".toList [] dfA dfB rfl rfl

/-- C5: no stage of the repository reorders items.  Every adapted stage
satisfies `NoReorder`: one fixed per-item function mapped over a prefix of the
input items position by position (truncation only at a raised exception),
followed only by stage-generated items drawn in order from one fixed list —
a shape a permuting transformer cannot have (`noReorder_excludes_reversal`)
and which is closed under composition, so an item reaching the sink does so
at the position determined by production order, modulo dropped tails. -/
theorem c5_no_reorder :
    (∀ (env : Env) (spec : StageSpec), NoReorder (interpStage env spec)) ∧
    (∀ T U : PStream → PStream, NoReorder T → NoReorder U →
        NoReorder (fun s => U (T s))) := by
  constructor
  · intro env spec
    cases spec with
    | readS fn ps => exact noReorder_generator (read_cmd env fn ps)
    | headS n => exact noReorder_runTransform (headStep env n)
    | filterS e => exact noReorder_runTransform (filterStep env e)
    | toS fn ps => exact noReorder_runTransform (toStep env fn ps)
    | infoS => exact noReorder_runTransform (infoStep env)
    | printS => exact noReorder_runTransform (printStep env)
  · exact noReorder_comp

/-- C5 witness: a concrete two-stage composition preserves order. -/
theorem c5_witness :
    NoReorder (fun s => (interpStage envC StageSpec.infoS)
      ((interpStage envC (StageSpec.headS 5)) s)) :=
  c5_no_reorder.2 (interpStage envC (StageSpec.headS 5)) (interpStage envC StageSpec.infoS)
    (c5_no_reorder.1 envC (StageSpec.headS 5)) (c5_no_reorder.1 envC StageSpec.infoS)

/-- C6: `process_commands` is the left fold of the adapted stage functions
over the empty stream followed by a full drain, and the drain visits every
item: the effects recorded for each item of the final stream occur, in order,
inside the effect trace of the run. -/
theorem c6_fold_and_drain :
    (∀ ps : List (PStream → PStream),
        process_commands ps = drain (List.foldl (fun s p => p s) emptyStream ps)) ∧
    (∀ (s : PStream) (i : Nat) (h : i < s.items.length),
        List.IsInfix ((s.items.get ⟨i, h⟩).1) (drain s).1) := by
  constructor
  · intro ps
    unfold process_commands
    rw [pipeLoop_foldl]
  · intro s i h
    have hmem : (s.items.get ⟨i, h⟩).1 ∈ s.items.map Prod.fst :=
      List.mem_map_of_mem Prod.fst (s.items.get_mem i h)
    obtain ⟨u, v, huv⟩ := List.infix_of_mem_flatten hmem
    refine ⟨u, v ++ s.final.1, ?_⟩
    unfold drain
    rw [← huv]
    simp [List.append_assoc]

/-- C6 witness: the effect of the only item of a concrete stream occurs in
the drain trace. -/
theorem c6_witness :
    List.IsInfix [OutEvent.stdout "x".toList] (drain s0).1 :=
  c6_fold_and_drain.2 s0 0 (by decide)

/-- C7 counterexample: the claim says an unknown extension always produces a
stage error for read and to.  For the `to` stage on an empty incoming stream
the extension is never looked up: with the unsupported extension txt the
stage yields nothing, raises nothing and produces no effect — a silent no-op. -/
theorem c7_counterexample :
    CONFIG_to_exts.contains (splitext "out.txt".toList).2 = false ∧
    to_cmd envC "out.txt".toList [] emptyStream = emptyStream := by
  constructor
  · decide
  · rfl

/-- C7 amended: `read` with an extension outside the lookup table always ends
in a raised stage error and yields no dataset (whatever the failure order:
missing file, bad params, or the KeyError itself); `to` with an unknown
extension raises KeyError as soon as it receives an item — only on an empty
incoming stream does it do nothing. -/
theorem c7_unknown_extension :
    (∀ (env : Env) (fn ps : Str),
        CONFIG_read_exts.contains (splitext fn).2 = false →
        (read_cmd env fn ps).items = [] ∧ ((read_cmd env fn ps).final.2).isSome = true) ∧
    (∀ (env : Env) (fn ps : Str) (s : PStream),
        CONFIG_to_exts.contains (splitext fn).2 = false →
        s.items ≠ [] →
        (to_cmd env fn ps s).items = [] ∧
        (to_cmd env fn ps s).final.2 = some (PyErr.keyError (splitext fn).2)) := by
  constructor
  · intro env fn ps h
    unfold read_cmd
    by_cases h1 : env.isfile fn
    · rw [if_pos h1]
      cases h2 : loose_params env ps with
      | none => exact ⟨rfl, rfl⟩
      | some prms =>
        rw [h]
        exact ⟨rfl, rfl⟩
    · rw [if_neg h1]
      exact ⟨rfl, rfl⟩
  · intro env fn ps s h1 h2
    have hstep : toStep env fn ps = fun _ =>
        ([], Except.error (PyErr.keyError (splitext fn).2)) := by
      funext x
      unfold toStep
      rw [h1]
      simp
    unfold to_cmd runTransform
    rw [hstep]
    cases hs : s.items with
    | nil => exact absurd hs h2
    | cons it rest =>
      obtain ⟨eff, x⟩ := it
      simp [runItems]

/-- C7 amended witness: concrete unknown extensions for both stages. -/
theorem c7_witness :
    ((read_cmd envC "a.txt".toList []).items = [] ∧
      ((read_cmd envC "a.txt".toList []).final.2).isSome = true) ∧
    ((to_cmd envC "out.txt".toList [] sOne).items = [] ∧
      (to_cmd envC "out.txt".toList [] sOne).final.2
        = some (PyErr.keyError (splitext "out.txt".toList).2)) :=
  ⟨c7_unknown_extension.1 envC "a.txt".toList [] (by decide),
   c7_unknown_extension.2 envC "out.txt".toList [] sOne (by decide) (by decide)⟩

/-- C8: with an existing file whose extension is in the configuration and
loose params that parse, the read stage invokes the external read capability
on the parsed params and yields exactly that one dataset with a normal end;
with a missing file it raises FileNotFoundError naming the file and yields
nothing. -/
theorem c8_read_contract :
    (∀ (env : Env) (fn ps : Str) (prms : Dict) (d : Dataset),
        env.isfile fn = true →
        loose_params env ps = some prms →
        CONFIG_read_exts.contains (splitext fn).2 = true →
        env.readResult (splitext fn).2 fn prms = Except.ok d →
        read_cmd env fn ps = ⟨[([], PyObj.df d)], ([], none)⟩) ∧
    (∀ (env : Env) (fn ps : Str), env.isfile fn = false →
        read_cmd env fn ps
          = raiseStream (PyErr.fileNotFound (fn ++ " not found.".toList))) := by
  constructor
  · intro env fn ps prms d h1 h2 h3 h4
    unfold read_cmd
    rw [h1, h2, h3]
    simp [h4]
  · intro env fn ps h1
    unfold read_cmd
    rw [h1]
    rfl

/-- C8 witness: both branches at concrete inputs of the test environment. -/
theorem c8_witness :
    (read_cmd envC "a.csv".toList [] = ⟨[([], PyObj.df dfA)], ([], none)⟩) ∧
    (read_cmd envC "missing.csv".toList []
      = raiseStream (PyErr.fileNotFound ("missing.csv".toList ++ " not found.".toList))) :=
  ⟨c8_read_contract.1 envC "a.csv".toList [] [] dfA rfl rfl rfl rfl,
   c8_read_contract.2 envC "missing.csv".toList [] rfl⟩

/-- C9: any nonempty loose-parameter string with a segment lacking an equals
sign makes `args_to_dict` fail as a whole (the IndexError raised when the
segment is indexed, both in the try block and again in the fallback), so no
entry is ever silently produced for such a segment: the code takes the
fail-the-whole-parse branch of the documented choice. -/
theorem c9_missing_eq_fails (litEval : Str → Option PyVal) (arg : Str)
    (hne : arg ≠ [])
    (hbad : ∃ seg ∈ splitOn '|' arg, ∀ c ∈ seg, c ≠ '=') :
    args_to_dict litEval arg = none := by
  have hiempty : arg.isEmpty = false := by
    cases arg with
    | nil => exact absurd rfl hne
    | cons c t => rfl
  unfold args_to_dict
  rw [hiempty]
  simpa using args_loop_missing_eq litEval (splitOn '|' arg) [] hbad

/-- C9 witness: a concrete string with a broken segment fails to parse. -/
theorem c9_witness : args_to_dict litEvalModel "a=1|brokenpart".toList = none :=
  c9_missing_eq_fails litEvalModel "a=1|brokenpart".toList (by decide)
    ⟨"brokenpart".toList, by decide, by decide⟩

/-- C10: when the callable wrapped by `processor` raises at call time — the
only point its try/except guards — the adapted stage echoes the error text to
stderr and returns `None` rather than any stream; iterating that `None`, in
the drain loop or in a downstream stage pulling from it, raises TypeError. -/
theorem c10_calltime (e : PyErr) (s : PStream)
    (step : PyObj → Effects × Except PyErr PyObj) :
    processor (PyCallable.raisesAtCall e) s
      = ([OutEvent.stderr ("Error: ".toList ++ errText e)], none) ∧
    drainOpt none = ([], some PyErr.typeErrorNoneNotIterable) ∧
    runTransformOpt step none = raiseStream PyErr.typeErrorNoneNotIterable :=
  ⟨rfl, rfl, rfl⟩

end CT
